import Mathlib

/-!
Verification of the timing-reconciliation engine of `voice_changer.py`.

The timing logic of the source is shallowly embedded here:

* durations are rationals (`ℚ`); floating-point divisions by `2.0` and `0.5`
  are exact in binary floating point, so the rational model is exact for the
  tempo planner;
* the external probe (`_get_media_duration`) is modelled by passing its result
  (`Option ℚ`, with `none` for a failed probe) as an argument to the functions
  that call it;
* ffmpeg commands are modelled by the data that the source puts into them:
  the audio filter directives and the `-shortest` flag;
* Python while-loops are modelled by structurally recursive functions with an
  explicit iteration bound that is provably sufficient (each iteration of the
  source loop halves resp. doubles the running ratio, and each iteration of
  the string scanner consumes at least one character).
-/

/-- A transcript segment, from `transcribe_audio`: `{text, start, end, duration}`.
The source field `end` is called `endTime` here because `end` is a Lean keyword. -/
structure TranscriptSegment where
  text : String
  start : ℚ
  endTime : ℚ
  duration : ℚ
deriving DecidableEq

/-- A transcript, from `transcribe_audio`: `{full_text, segments, total_duration}`. -/
structure TranscriptData where
  full_text : String
  segments : List TranscriptSegment
  total_duration : ℚ
deriving DecidableEq

/-- Python regex class `\s`: the whitespace characters. -/
def pySpace (c : Char) : Bool :=
  c = ' ' || c = '\t' || c = '\n' || c = '\r' || c = '\x0b' || c = '\x0c'

/-- Whether a character list starts with a whitespace character (the `\s+`
part of the patterns in `_create_natural_text` requires at least one). -/
def headIsSpace : List Char → Bool
  | [] => false
  | c :: _ => pySpace c

/-- One pass of `re.sub(r'([P])\s+', r'\1 TAG ', text)` for a character class
`puncts`, scanning left to right: a class member followed by at least one
whitespace character is kept, the whitespace run is consumed greedily, and
`tag` (which carries the surrounding spaces of the replacement) is inserted.
The first argument bounds the number of scanning steps; every step consumes
at least one input character, so `text.length` steps always suffice. -/
def subBreak (puncts tag : List Char) : ℕ → List Char → List Char
  | _, [] => []
  | 0, text => text
  | fuel + 1, c :: cs =>
    if puncts.contains c && headIsSpace cs then
      c :: (tag ++ subBreak puncts tag fuel (cs.dropWhile pySpace))
    else
      c :: subBreak puncts tag fuel cs

/-- One regex pass with the always-sufficient step bound. -/
def runSub (puncts tag text : List Char) : List Char :=
  subBreak puncts tag text.length text

/-- Replacement text inserted after sentence punctuation in `_create_natural_text`. -/
def breakTag04 : List Char := " <break time=\"0.4s\"/> ".data

/-- Replacement text inserted after commas in `_create_natural_text`. -/
def breakTag02 : List Char := " <break time=\"0.2s\"/> ".data

/-- Replacement text inserted after semicolons and colons in `_create_natural_text`. -/
def breakTag03 : List Char := " <break time=\"0.3s\"/> ".data

/-- Leading pause of the final f-string of `_create_natural_text`. -/
def breakLead : List Char := "<break time=\"0.2s\"/> ".data

/-- Trailing pause of the final f-string of `_create_natural_text`. -/
def breakTail : List Char := " <break time=\"0.3s\"/>".data

/-- The Pause-Script Composer `_create_natural_text`: three sequential regex
substitutions on `full_text` (after `.!?`, after `,`, after `;:`), then a
leading and a trailing pause.  The `segments` and `total_duration` fields of
the transcript are not read by the source function. -/
def create_natural_text (transcript_data : TranscriptData) : String :=
  String.mk (breakLead ++
    runSub [';', ':'] breakTag03
      (runSub [','] breakTag02
        (runSub ['.', '!', '?'] breakTag04 transcript_data.full_text.data))
    ++ breakTail)

/-- The `while remaining_ratio > 2.0` loop of `_create_tempo_filter`: emit a
`2.0` operation and divide the ratio by `2.0`.  The first argument bounds the
number of iterations; `⌈r⌉.toNat` is provably sufficient. -/
def halveIter : ℕ → ℚ → List ℚ × ℚ
  | 0, r => ([], r)
  | fuel + 1, r =>
    if 2 < r then
      ((2 : ℚ) :: (halveIter fuel (r / 2)).1, (halveIter fuel (r / 2)).2)
    else ([], r)

/-- The `while remaining_ratio < 0.5` loop of `_create_tempo_filter`: emit a
`0.5` operation and divide the ratio by `0.5`.  The first argument bounds the
number of iterations; `⌈1/r⌉.toNat` is provably sufficient for `0 < r`
(for `r ≤ 0` the source loop never terminates). -/
def doubleIter : ℕ → ℚ → List ℚ × ℚ
  | 0, r => ([], r)
  | fuel + 1, r =>
    if r < 1/2 then
      ((1/2 : ℚ) :: (doubleIter fuel (r / (1/2))).1, (doubleIter fuel (r / (1/2))).2)
    else ([], r)

/-- Both loops of `_create_tempo_filter` run in sequence on the running
remainder: the emitted multipliers and the final remainder. -/
def tempoChain (r : ℚ) : List ℚ × ℚ :=
  ((halveIter (⌈r⌉).toNat r).1 ++
      (doubleIter (⌈1 / (halveIter (⌈r⌉).toNat r).2⌉).toNat (halveIter (⌈r⌉).toNat r).2).1,
    (doubleIter (⌈1 / (halveIter (⌈r⌉).toNat r).2⌉).toNat (halveIter (⌈r⌉).toNat r).2).2)

/-- The Tempo-Ratio Planner `_create_tempo_filter`: for ratio `1.0` the empty
chain; otherwise both loops, then one final operation at the remainder when
the remainder differs from `1.0`.  Each list element is the multiplier of one
`atempo` operation, in order. -/
def create_tempo_filter (speed_ratio : ℚ) : List ℚ :=
  if speed_ratio = 1 then []
  else if (tempoChain speed_ratio).2 = 1 then (tempoChain speed_ratio).1
  else (tempoChain speed_ratio).1 ++ [(tempoChain speed_ratio).2]

/-- An audio filter directive placed into an ffmpeg `-af` argument. -/
inductive AudioFilter where
  | apad (whole_dur : ℚ)
  | atrim (duration : ℚ)
  | atempo (multiplier : ℚ)
deriving DecidableEq

/-- Whether a filter directive is a tempo operation. -/
def AudioFilter.isTempo : AudioFilter → Bool
  | AudioFilter.atempo _ => true
  | _ => false

/-- The timing-relevant content of the final mux command built by
`replace_audio_in_video`: its audio filter directives and whether the
`-shortest` flag is appended. -/
structure MuxCommand where
  audioFilters : List AudioFilter
  shortest : Bool
deriving DecidableEq

/-- The timing-relevant content of the Mode B command built by
`_adjust_video_speed_with_itsscale`. -/
structure SpeedPlan where
  speed_ratio : ℚ
  clamp_warning : Bool
  itsscale : ℚ
  audioFilters : List AudioFilter
deriving DecidableEq

/-- `replace_audio_in_video`, lines 434-506 of the source, as a function of
the two probed durations (`none` = probe failed) and the `original_duration`
parameter.  Note the source guard is Python truthiness
(`if video_duration and audio_duration`), so a `0.0` duration takes the
fallback branch exactly like a failed probe.  `original_duration` is accepted
but never read by the source body. -/
def replace_audio_in_video (video_duration new_audio_duration : Option ℚ)
    (original_duration : Option ℚ) : MuxCommand :=
  match video_duration, new_audio_duration with
  | some video_d, some audio_d =>
    if video_d = 0 ∨ audio_d = 0 then ⟨[], true⟩
    else if 1 < |video_d - audio_d| then
      if audio_d < video_d then ⟨[AudioFilter.apad video_d], false⟩
      else ⟨[AudioFilter.atrim video_d], false⟩
    else ⟨[], true⟩
  | _, _ => ⟨[], true⟩

/-- Default of the `max_speed_ratio` parameter of
`_adjust_video_speed_with_itsscale` and `process_video` (source: `2.5`). -/
def max_speed_ratio_default : ℚ := 5/2

/-- The `speed_ratio` local of `_adjust_video_speed_with_itsscale`, after the
two clamping branches (lines 236-245): `video_duration / audio_duration`,
replaced by `0.5` when below `0.5`, else by `max_speed_ratio` when above it. -/
def modeB_speed_ratio (video_d audio_d max_speed_ratio : ℚ) : ℚ :=
  if video_d / audio_d < 1/2 then 1/2
  else if max_speed_ratio < video_d / audio_d then max_speed_ratio
  else video_d / audio_d

/-- Whether `_adjust_video_speed_with_itsscale` printed a clamping warning:
exactly when one of the two clamping branches was taken. -/
def modeB_warned (video_d audio_d max_speed_ratio : ℚ) : Bool :=
  if video_d / audio_d < 1/2 then true
  else if max_speed_ratio < video_d / audio_d then true
  else false

/-- The pad/trim decision of `_adjust_video_speed_with_itsscale` (lines
266-278) against the scaled video duration `final_video_duration`. -/
def modeB_audio_filter (audio_d final_video_duration : ℚ) : List AudioFilter :=
  if audio_d < final_video_duration - 1/2 then [AudioFilter.apad final_video_duration]
  else if final_video_duration + 1/2 < audio_d then [AudioFilter.atrim final_video_duration]
  else []

/-- `_adjust_video_speed_with_itsscale`, lines 220-307 of the source, as a
function of the two probed durations and the speed ceiling.  `none` is the
aborted run (`return False` on a failed — or, by Python truthiness, zero —
duration probe).  The returned plan carries the clamped speed ratio, whether
a clamping warning was printed, the `-itsscale` factor (`1.0 / speed_ratio`),
and the pad/trim audio filter chosen against the scaled video duration. -/
def adjust_video_speed_with_itsscale (video_duration audio_duration : Option ℚ)
    (max_speed_ratio : ℚ) : Option SpeedPlan :=
  match video_duration, audio_duration with
  | some video_d, some audio_d =>
    if video_d = 0 ∨ audio_d = 0 then none
    else
      some ⟨modeB_speed_ratio video_d audio_d max_speed_ratio,
            modeB_warned video_d audio_d max_speed_ratio,
            1 / modeB_speed_ratio video_d audio_d max_speed_ratio,
            modeB_audio_filter audio_d
              (video_d / modeB_speed_ratio video_d audio_d max_speed_ratio)⟩
  | _, _ => none

/-- Step 4 of `process_video` (lines 551-560): with `adjust_video_speed` the
Mode B adjuster runs and its failure fails the run; otherwise
`replace_audio_in_video` runs, which builds a mux command for every probe
outcome (a failed probe takes its fallback branch, it does not fail the
step). -/
def process_video_step4 (adjust_video_speed : Bool)
    (video_duration ai_audio_duration : Option ℚ)
    (total_duration max_speed_ratio : ℚ) : Bool :=
  if adjust_video_speed then
    (adjust_video_speed_with_itsscale video_duration ai_audio_duration max_speed_ratio).isSome
  else
    true

/-- The audio filter directives applied to the synthesized audio in Mode A
(`adjust_video_speed = False`): `generate_ai_voice_with_timing` returns the
synthesized audio unchanged ("Return the natural AI voice without
stretching"), so the only audio filters of the mode are those of the final
mux `replace_audio_in_video`, called with `original_duration =
transcript_data.get('total_duration')`. -/
def modeA_audio_filters (video_duration ai_audio_duration : Option ℚ)
    (total_duration : ℚ) : List AudioFilter :=
  (replace_audio_in_video video_duration ai_audio_duration (some total_duration)).audioFilters

/-- Modelled from the spec: the tempo operations that spec section 4.4 Mode A
claims are applied to the synthesized audio — `stretch = Ao / Ag` clamped to
`[0.5, 2.0]`, `tempo = 1 / stretch`, decomposed by the Tempo-Ratio Planner.
No corresponding code exists in the source; this definition exists only to be
compared against the source's actual Mode A behaviour. -/
def spec_modeA_tempo_ops (Ao Ag : ℚ) : List AudioFilter :=
  (create_tempo_filter (1 / max (1/2) (min 2 (Ao / Ag)))).map AudioFilter.atempo

/-- Character predicate used by the path model: not a path separator. -/
def notSlash (c : Char) : Bool := c != '/'

/-- Character predicate used by the path model: not a dot. -/
def notDot (c : Char) : Bool := c != '.'

/-- `pathlib.Path(p).name`: the part of the path after the last separator. -/
def basenameChars (p : List Char) : List Char :=
  (p.reverse.takeWhile notSlash).reverse

/-- `str(pathlib.Path(p).parent)` for a path with a parent part: everything
before the last separator (empty when the path has no separator, matching a
parent of `.`). -/
def dirnameChars (p : List Char) : List Char :=
  ((p.reverse.dropWhile notSlash).drop 1).reverse

/-- `parent / name` of pathlib: a relative single-component parent (modelled
as the empty list, pathlib's `.`) joins to the bare name, otherwise the
separator is inserted. -/
def joinChars (d n : List Char) : List Char :=
  if d = [] then n else d ++ '/' :: n

/-- `pathlib` stem of a file name: the name up to its last dot, except when
the name has no dot, when the last dot is its first character, or when the
last dot is its final character (CPython: `0 < name.rfind('.') < len(name)-1`). -/
def stemChars (n : List Char) : List Char :=
  if (n.reverse.dropWhile notDot).drop 1 = [] ∨ n.reverse.takeWhile notDot = []
      ∨ n.reverse.dropWhile notDot = []
  then n
  else ((n.reverse.dropWhile notDot).drop 1).reverse

/-- `pathlib.Path(p).stem`: the stem of the final path component. -/
def path_stem (p : List Char) : List Char :=
  stemChars (basenameChars p)

/-- The suffix appended to the stem by `process_video` when no output path is
given. -/
def voiceChangedSuffix : List Char := "_voice_changed.mp4".data

/-- Lines 514-519 of `process_video`: the output path chosen when
`output_path` is `None`: `video_path_obj.parent / (stem + "_voice_changed.mp4")`. -/
def default_output_path (video_path : List Char) : List Char :=
  joinChars (dirnameChars video_path) (path_stem video_path ++ voiceChangedSuffix)

/-- Whether the first list is an initial run of the second. -/
def leadsList : List Char → List Char → Bool
  | [], _ => true
  | _ :: _, [] => false
  | a :: as, b :: bs => a == b && leadsList as bs

/-- Whether the first list occurs contiguously anywhere in the second. -/
def hasSubstr (p : List Char) : List Char → Bool
  | [] => leadsList p []
  | c :: cs => leadsList p (c :: cs) || hasSubstr p cs

/-- First segment of the concrete two-segment transcript used to test the
gap-tier policy (gap to the next segment: `3.0` seconds). -/
def seg1 : TranscriptSegment := ⟨"Hello", 0, 1, 1⟩

/-- Second segment of the concrete two-segment transcript used to test the
gap-tier policy. -/
def seg2 : TranscriptSegment := ⟨"world", 4, 5, 1⟩

/-- A concrete two-segment transcript whose inter-segment gap is `3.0`
seconds (`seg2.start - seg1.endTime`). -/
def gapTranscript : TranscriptData := ⟨"Hello world", [seg1, seg2], 5⟩

/-- The same words with a different segmentation: inter-segment gap `0.1`
seconds. -/
def gapTranscriptShifted : TranscriptData :=
  ⟨"Hello world", [⟨"Hello", 0, 1, 1⟩, ⟨"world", 11/10, 5, 39/10⟩], 5⟩

/-! ### Lemmas about the two loops of the Tempo-Ratio Planner -/

theorem halveIter_prod (fuel : ℕ) :
    ∀ r : ℚ, (halveIter fuel r).1.prod * (halveIter fuel r).2 = r := by
  induction fuel with
  | zero => intro r; simp [halveIter]
  | succ n ih =>
    intro r
    simp only [halveIter]
    split
    · show ((2 : ℚ) :: (halveIter n (r / 2)).1).prod * (halveIter n (r / 2)).2 = r
      rw [List.prod_cons, mul_assoc, ih (r / 2)]
      ring
    · show ([] : List ℚ).prod * r = r
      simp

theorem halveIter_mem (fuel : ℕ) :
    ∀ r m : ℚ, m ∈ (halveIter fuel r).1 → m = 2 := by
  induction fuel with
  | zero => intro r m hm; simp [halveIter] at hm
  | succ n ih =>
    intro r m hm
    simp only [halveIter] at hm
    split at hm
    · rcases List.mem_cons.mp hm with h | h
      · exact h
      · exact ih (r / 2) m h
    · simp at hm

theorem halveIter_rem_pos (fuel : ℕ) :
    ∀ r : ℚ, 0 < r → 0 < (halveIter fuel r).2 := by
  induction fuel with
  | zero => intro r hr; simpa [halveIter] using hr
  | succ n ih =>
    intro r hr
    simp only [halveIter]
    split
    · exact ih (r / 2) (by positivity)
    · simpa using hr

theorem halveIter_rem_le (fuel : ℕ) :
    ∀ r : ℚ, (⌈r⌉).toNat ≤ fuel → (halveIter fuel r).2 ≤ 2 := by
  induction fuel with
  | zero =>
    intro r h
    have h1 : ⌈r⌉ ≤ 0 := by omega
    have h2 : r ≤ (⌈r⌉ : ℚ) := Int.le_ceil r
    have h3 : ((⌈r⌉ : ℤ) : ℚ) ≤ 0 := by exact_mod_cast h1
    show r ≤ 2
    linarith
  | succ n ih =>
    intro r h
    simp only [halveIter]
    split
    next hgt =>
      apply ih (r / 2)
      have h4 : (2 : ℤ) < ⌈r⌉ := by
        rw [Int.lt_ceil]
        exact_mod_cast hgt
      have h5 : r / 2 ≤ r - 1 := by linarith
      have h6 : ⌈r / 2⌉ ≤ ⌈r - 1⌉ := Int.ceil_mono h5
      have h7 : ⌈r - 1⌉ = ⌈r⌉ - 1 := by
        have h8 := Int.ceil_sub_int r 1
        simpa using h8
      omega
    next hle =>
      show r ≤ 2
      linarith [not_lt.mp hle]

theorem doubleIter_prod (fuel : ℕ) :
    ∀ r : ℚ, (doubleIter fuel r).1.prod * (doubleIter fuel r).2 = r := by
  induction fuel with
  | zero => intro r; simp [doubleIter]
  | succ n ih =>
    intro r
    simp only [doubleIter]
    split
    · show ((1/2 : ℚ) :: (doubleIter n (r / (1/2))).1).prod * (doubleIter n (r / (1/2))).2 = r
      rw [List.prod_cons, mul_assoc, ih (r / (1/2))]
      ring
    · show ([] : List ℚ).prod * r = r
      simp

theorem doubleIter_mem (fuel : ℕ) :
    ∀ r m : ℚ, m ∈ (doubleIter fuel r).1 → m = 1/2 := by
  induction fuel with
  | zero => intro r m hm; simp [doubleIter] at hm
  | succ n ih =>
    intro r m hm
    simp only [doubleIter] at hm
    split at hm
    · rcases List.mem_cons.mp hm with h | h
      · exact h
      · exact ih (r / (1/2)) m h
    · simp at hm

theorem doubleIter_rem_pos (fuel : ℕ) :
    ∀ r : ℚ, 0 < r → 0 < (doubleIter fuel r).2 := by
  induction fuel with
  | zero => intro r hr; simpa [doubleIter] using hr
  | succ n ih =>
    intro r hr
    simp only [doubleIter]
    split
    · exact ih (r / (1/2)) (by positivity)
    · simpa using hr

theorem doubleIter_rem_ge (fuel : ℕ) :
    ∀ r : ℚ, 0 < r → (⌈1 / r⌉).toNat ≤ fuel → 1/2 ≤ (doubleIter fuel r).2 := by
  induction fuel with
  | zero =>
    intro r hr h
    exfalso
    have h1 : ⌈1 / r⌉ ≤ 0 := by omega
    have h2 : (0 : ℚ) < 1 / r := by positivity
    have h3 : (1 / r : ℚ) ≤ (⌈1 / r⌉ : ℚ) := Int.le_ceil _
    have h4 : ((⌈1 / r⌉ : ℤ) : ℚ) ≤ 0 := by exact_mod_cast h1
    linarith
  | succ n ih =>
    intro r hr h
    simp only [doubleIter]
    split
    next hlt =>
      apply ih (r / (1/2)) (by positivity)
      have e0 : r / (1/2) = r * 2 := by ring
      have e1 : (1 : ℚ) / (r * 2) = (1 / r) / 2 := (div_div 1 r 2).symm
      rw [e0, e1]
      have hinv : (2 : ℚ) < 1 / r := by
        rw [lt_div_iff hr]
        linarith
      have h4 : (2 : ℤ) < ⌈1 / r⌉ := by
        rw [Int.lt_ceil]
        exact_mod_cast hinv
      have h5 : (1 / r) / 2 ≤ (1 / r) - 1 := by linarith
      have h6 : ⌈(1 / r) / 2⌉ ≤ ⌈(1 / r) - 1⌉ := Int.ceil_mono h5
      have h7 : ⌈(1 / r) - 1⌉ = ⌈1 / r⌉ - 1 := by
        have h8 := Int.ceil_sub_int (1 / r) 1
        simpa using h8
      omega
    next hge =>
      show 1/2 ≤ r
      exact le_of_not_lt hge

theorem doubleIter_rem_le (fuel : ℕ) :
    ∀ r : ℚ, 0 < r → r ≤ 2 → (doubleIter fuel r).2 ≤ 2 := by
  induction fuel with
  | zero => intro r hr h2; simpa [doubleIter] using h2
  | succ n ih =>
    intro r hr h2
    simp only [doubleIter]
    split
    next hlt =>
      apply ih (r / (1/2)) (by positivity)
      have e0 : r / (1/2) = r * 2 := by ring
      rw [e0]
      linarith
    next => show r ≤ 2; exact h2

theorem tempoChain_prod (r : ℚ) : (tempoChain r).1.prod * (tempoChain r).2 = r := by
  unfold tempoChain
  rw [List.prod_append, mul_assoc, doubleIter_prod, halveIter_prod]

theorem tempoChain_mem (r m : ℚ) (hm : m ∈ (tempoChain r).1) : m = 2 ∨ m = 1/2 := by
  unfold tempoChain at hm
  rcases List.mem_append.mp hm with h | h
  · exact Or.inl (halveIter_mem _ _ m h)
  · exact Or.inr (doubleIter_mem _ _ m h)

theorem tempoChain_rem_bounds (r : ℚ) (hr : 0 < r) :
    1/2 ≤ (tempoChain r).2 ∧ (tempoChain r).2 ≤ 2 := by
  unfold tempoChain
  have hp : 0 < (halveIter (⌈r⌉).toNat r).2 := halveIter_rem_pos _ r hr
  have hle : (halveIter (⌈r⌉).toNat r).2 ≤ 2 := halveIter_rem_le _ r (le_refl _)
  exact ⟨doubleIter_rem_ge _ _ hp (le_refl _), doubleIter_rem_le _ _ hp hle⟩

/-! ### Claim C4 -/

/-- C4: for every positive ratio `r`, the product of the multipliers of all
operations emitted by the Tempo-Ratio Planner `_create_tempo_filter r`
equals `r` (exactly, in the rational model of the planner). -/
theorem create_tempo_filter_prod (r : ℚ) (hr : 0 < r) :
    (create_tempo_filter r).prod = r := by
  unfold create_tempo_filter
  by_cases h1 : r = 1
  · rw [if_pos h1, h1]
    rfl
  · rw [if_neg h1]
    by_cases h2 : (tempoChain r).2 = 1
    · rw [if_pos h2]
      have h3 := tempoChain_prod r
      rw [h2, mul_one] at h3
      exact h3
    · rw [if_neg h2, List.prod_append, List.prod_singleton]
      exact tempoChain_prod r

/-- Witness for C4 at `r = 3`: the planner emits `[2.0, 1.5]`, whose product
is `3`. -/
theorem create_tempo_filter_prod_witness : (create_tempo_filter 3).prod = 3 :=
  create_tempo_filter_prod 3 (by norm_num)

/-! ### Claim C7 -/

/-- C7: the Tempo-Ratio Planner returns an empty operation sequence for input
ratio exactly `1.0`, and for every positive input ratio each emitted
multiplier lies in `[0.5, 2.0]`. -/
theorem create_tempo_filter_wellformed (r : ℚ) (hr : 0 < r) :
    create_tempo_filter 1 = [] ∧ ∀ m ∈ create_tempo_filter r, 1/2 ≤ m ∧ m ≤ 2 := by
  constructor
  · rw [create_tempo_filter, if_pos rfl]
  · intro m hm
    unfold create_tempo_filter at hm
    by_cases h1 : r = 1
    · rw [if_pos h1] at hm
      simp at hm
    · rw [if_neg h1] at hm
      by_cases h2 : (tempoChain r).2 = 1
      · rw [if_pos h2] at hm
        rcases tempoChain_mem r m hm with h3 | h3 <;> rw [h3] <;> norm_num
      · rw [if_neg h2] at hm
        rcases List.mem_append.mp hm with h3 | h3
        · rcases tempoChain_mem r m h3 with h4 | h4 <;> rw [h4] <;> norm_num
        · rw [List.mem_singleton.mp h3]
          exact tempoChain_rem_bounds r hr

/-- Witness for C7 at `r = 5`: the planner emits `[2.0, 2.0, 1.25]`, and the
multiplier `1.25` lies in `[0.5, 2.0]`. -/
theorem create_tempo_filter_wellformed_witness :
    1/2 ≤ (5/4 : ℚ) ∧ (5/4 : ℚ) ≤ 2 :=
  (create_tempo_filter_wellformed 5 (by norm_num)).2 (5/4) (by
    have hc1 : (⌈(4/5 : ℚ)⌉) = 1 := by
      rw [Int.ceil_eq_iff] <;> norm_num
    norm_num [create_tempo_filter, tempoChain, halveIter, doubleIter, hc1])

/-! ### Claim C1 -/

/-- Counterexample to C1, at the spec's own end-to-end scenario
(`Ao = 1.2`, `Ag = 2.4`, video duration `1.2`): the claimed Mode A tempo
decomposition is the nonempty chain `[atempo 2.0]`, yet the Mode A pipeline
applies no tempo operation at all to the synthesized audio — its only audio
filter is the final-mux trim. -/
theorem modeA_stretch_not_applied :
    spec_modeA_tempo_ops (12/10) (24/10) = [AudioFilter.atempo 2]
  ∧ modeA_audio_filters (some (12/10)) (some (24/10)) (12/10) = [AudioFilter.atrim (12/10)]
  ∧ (modeA_audio_filters (some (12/10)) (some (24/10)) (12/10)).filter AudioFilter.isTempo
      = [] := by
  refine ⟨?_, ?_, ?_⟩
  · have hc1 : (⌈(1/2 : ℚ)⌉) = 1 := by
      rw [Int.ceil_eq_iff] <;> norm_num
    norm_num [spec_modeA_tempo_ops, create_tempo_filter, tempoChain, halveIter, doubleIter,
      max_def, min_def, hc1]
  · norm_num [modeA_audio_filters, replace_audio_in_video, abs_sub_comm, abs_of_nonneg]
  · norm_num [modeA_audio_filters, replace_audio_in_video, abs_sub_comm, abs_of_nonneg,
      AudioFilter.isTempo]

/-- C1 (amended): in Mode A (`adjust_video_speed = False`) the synthesized
audio is never tempo-transformed — the pipeline muxes it as-is via
`replace_audio_in_video`, so the audio filters applied in the mode contain no
tempo operation for any probe results and any transcript duration. -/
theorem modeA_applies_no_tempo (vd ad : Option ℚ) (tot : ℚ) :
    (modeA_audio_filters vd ad tot).filter AudioFilter.isTempo = []
  ∧ modeA_audio_filters vd ad tot
      = (replace_audio_in_video vd ad (some tot)).audioFilters := by
  refine ⟨?_, rfl⟩
  unfold modeA_audio_filters
  cases vd with
  | none => rfl
  | some v =>
    cases ad with
    | none => rfl
    | some a =>
      simp only [replace_audio_in_video]
      split_ifs <;> rfl

/-! ### Claim C2 -/

/-- Counterexample to C2: a two-segment transcript with inter-segment gap
`3.0` seconds, for which the tiered policy would insert the fixed `2.0s`
pause; the composed script is the bare punctuation-annotated `full_text` with
the fixed leading/trailing pauses, and contains no `2.0`-second pause
directive anywhere. -/
theorem gap_tier_pause_missing :
    gapTranscript.segments = [seg1, seg2]
  ∧ seg2.start - seg1.endTime = 3
  ∧ create_natural_text gapTranscript
      = "<break time=\"0.2s\"/> Hello world <break time=\"0.3s\"/>"
  ∧ hasSubstr ("2.0".data) (create_natural_text gapTranscript).data = false :=
  ⟨rfl, by norm_num [seg1, seg2], by decide, by decide⟩

/-- C2 (amended): the Pause-Script Composer ignores the segment list and the
timing data entirely — the composed script is a function of `full_text`
alone (fixed pauses after punctuation plus fixed leading/trailing pauses), so
transcripts with identical `full_text` but arbitrarily different segment gaps
produce identical scripts. -/
theorem create_natural_text_ignores_segments (t1 t2 : TranscriptData)
    (h : t1.full_text = t2.full_text) :
    create_natural_text t1 = create_natural_text t2 := by
  unfold create_natural_text
  rw [h]

/-- Witness for the amended C2: the gap-`3.0s` and gap-`0.1s` segmentations
of the same words produce the same script. -/
theorem create_natural_text_ignores_segments_witness :
    create_natural_text gapTranscript = create_natural_text gapTranscriptShifted :=
  create_natural_text_ignores_segments gapTranscript gapTranscriptShifted rfl

/-! ### Claim C3 -/

/-- Counterexample to C3: in the Mode B video-scaling path a failed video
probe aborts the whole run (`_adjust_video_speed_with_itsscale` returns
`False`, and step 4 of `process_video` turns that into a run failure). -/
theorem probe_failure_aborts_modeB :
    process_video_step4 true none (some 5) 5 (5/2) = false
  ∧ adjust_video_speed_with_itsscale none (some 5) (5/2) = none :=
  ⟨rfl, rfl⟩

/-- C3 (amended): a failed duration probe is absorbed at the final mux
(`replace_audio_in_video` falls back to shortest-stream truncation with no
filter directives, and the Mode A step never fails on it), but in the Mode B
video-scaling path a failed probe of either duration aborts the run as a
failure. -/
theorem probe_failure_policy (x od : Option ℚ) (tot mr : ℚ) :
    replace_audio_in_video none x od = ⟨[], true⟩
  ∧ replace_audio_in_video x none od = ⟨[], true⟩
  ∧ process_video_step4 false none x tot mr = true
  ∧ process_video_step4 false x none tot mr = true
  ∧ process_video_step4 true none x tot mr = false
  ∧ process_video_step4 true x none tot mr = false := by
  cases x <;> exact ⟨rfl, rfl, rfl, rfl, rfl, rfl⟩

/-! ### Claim C5 -/

/-- Counterexample to C5: for a known zero video duration against a known
`5.0s` audio duration the difference exceeds `1.0s`, so the claimed policy
would trim the audio to the video's duration; the source's Python-truthiness
guard instead takes the unconditional shortest-stream fallback with no
filter. -/
theorem zero_duration_takes_fallback :
    (1 : ℚ) < |(0 : ℚ) - 5|
  ∧ replace_audio_in_video (some 0) (some 5) none = ⟨[], true⟩ :=
  ⟨by norm_num, rfl⟩

/-- C5 (amended): at the final mux, when both durations are known and
nonzero: a difference above `1.0s` pads (audio shorter) or trims (audio
longer) the audio to the video's duration; a difference of at most `1.0s`
applies no filter and truncates to the shorter stream; when either duration
is unobtainable (or zero, which the truthiness guard treats the same way) the
mux falls back to shortest-stream truncation with no filter directives. -/
theorem replace_audio_mux_policy (vd ad : ℚ) (od : Option ℚ)
    (hv : vd ≠ 0) (ha : ad ≠ 0) :
    (1 < |vd - ad| → ad < vd →
       replace_audio_in_video (some vd) (some ad) od = ⟨[AudioFilter.apad vd], false⟩)
  ∧ (1 < |vd - ad| → vd < ad →
       replace_audio_in_video (some vd) (some ad) od = ⟨[AudioFilter.atrim vd], false⟩)
  ∧ (|vd - ad| ≤ 1 →
       replace_audio_in_video (some vd) (some ad) od = ⟨[], true⟩)
  ∧ (∀ x odx : Option ℚ,
       replace_audio_in_video none x odx = ⟨[], true⟩
     ∧ replace_audio_in_video x none odx = ⟨[], true⟩) := by
  have hor : ¬(vd = 0 ∨ ad = 0) := by
    push_neg
    exact ⟨hv, ha⟩
  refine ⟨?_, ?_, ?_, ?_⟩
  · intro hd hlt
    simp only [replace_audio_in_video]
    rw [if_neg hor, if_pos hd, if_pos hlt]
  · intro hd hlt
    simp only [replace_audio_in_video]
    rw [if_neg hor, if_pos hd, if_neg (not_lt.mpr (le_of_lt hlt))]
  · intro hd
    simp only [replace_audio_in_video]
    rw [if_neg hor, if_neg (not_lt.mpr hd)]
  · intro x odx
    cases x <;> exact ⟨rfl, rfl⟩

/-- Witness for the amended C5 at the spec's boundary example: video `10.0s`
against audio `11.2s` emits the trim-to-`10.0s` instruction. -/
theorem replace_audio_mux_policy_witness :
    replace_audio_in_video (some 10) (some (56/5)) none = ⟨[AudioFilter.atrim 10], false⟩ :=
  (replace_audio_mux_policy 10 (56/5) none (by norm_num) (by norm_num)).2.1
    (by norm_num [abs_sub_comm, abs_of_nonneg]) (by norm_num)

/-! ### Claim C6 -/

/-- The clamping of the Mode B speed ratio equals the interval clamp to
`[0.5, max_speed_ratio]` whenever the ceiling is at least `0.5`. -/
theorem modeB_speed_ratio_eq_clamp (vd ad maxr : ℚ) (hm : 1/2 ≤ maxr) :
    modeB_speed_ratio vd ad maxr = max (1/2) (min maxr (vd / ad)) := by
  unfold modeB_speed_ratio
  rcases lt_or_le (vd / ad) (1/2) with h1 | h1
  · rw [if_pos h1, min_eq_right (le_of_lt (lt_of_lt_of_le h1 hm)),
      max_eq_left (le_of_lt h1)]
  · rw [if_neg (not_lt.mpr h1)]
    rcases lt_or_le maxr (vd / ad) with h2 | h2
    · rw [if_pos h2, min_eq_left (le_of_lt h2), max_eq_right hm]
    · rw [if_neg (not_lt.mpr h2), min_eq_right h2, max_eq_right h1]

/-- The Mode B clamping warning fires exactly when the raw ratio lies outside
the clamp interval. -/
theorem modeB_warned_iff (vd ad maxr : ℚ) :
    modeB_warned vd ad maxr
      = (if vd / ad < 1/2 ∨ maxr < vd / ad then true else false) := by
  unfold modeB_warned
  by_cases h1 : vd / ad < 1/2 <;> by_cases h2 : maxr < vd / ad <;> simp [h1, h2]

/-- C6: in Mode B, for positive durations the applied speed ratio is
`Vo / Aa` clamped to `[0.5, max_speed_ratio]`, a warning is recorded exactly
when clamping occurs, the `-itsscale` factor passed to the transcoder is the
inverse `1 / speed`, and the caller-supplied ceiling defaults to `2.5`. -/
theorem modeB_speed_ratio_clamped (vd ad maxr : ℚ)
    (hv : 0 < vd) (ha : 0 < ad) (hm : 1/2 ≤ maxr) :
    (adjust_video_speed_with_itsscale (some vd) (some ad) maxr).map SpeedPlan.speed_ratio
        = some (max (1/2) (min maxr (vd / ad)))
  ∧ (adjust_video_speed_with_itsscale (some vd) (some ad) maxr).map SpeedPlan.itsscale
        = some (1 / max (1/2) (min maxr (vd / ad)))
  ∧ (adjust_video_speed_with_itsscale (some vd) (some ad) maxr).map SpeedPlan.clamp_warning
        = some (if vd / ad < 1/2 ∨ maxr < vd / ad then true else false)
  ∧ max_speed_ratio_default = 5/2 := by
  have hor : ¬(vd = 0 ∨ ad = 0) := by
    push_neg
    exact ⟨ne_of_gt hv, ne_of_gt ha⟩
  simp only [adjust_video_speed_with_itsscale]
  rw [if_neg hor]
  refine ⟨?_, ?_, ?_, rfl⟩
  · show some (modeB_speed_ratio vd ad maxr) = _
    rw [modeB_speed_ratio_eq_clamp vd ad maxr hm]
  · show some (1 / modeB_speed_ratio vd ad maxr) = _
    rw [modeB_speed_ratio_eq_clamp vd ad maxr hm]
  · show some (modeB_warned vd ad maxr) = _
    rw [modeB_warned_iff]

/-- Witness for C6 at the spec's Mode B clamping test: durations `4.0`/`1.0`
(raw ratio `4.0`) with the default ceiling `2.5`. -/
theorem modeB_speed_ratio_clamped_witness :
    (adjust_video_speed_with_itsscale (some 4) (some 1) (5/2)).map SpeedPlan.speed_ratio
        = some (max (1/2) (min (5/2) ((4 : ℚ) / 1)))
  ∧ (adjust_video_speed_with_itsscale (some 4) (some 1) (5/2)).map SpeedPlan.itsscale
        = some (1 / max (1/2) (min (5/2) ((4 : ℚ) / 1)))
  ∧ (adjust_video_speed_with_itsscale (some 4) (some 1) (5/2)).map SpeedPlan.clamp_warning
        = some (if (4 : ℚ) / 1 < 1/2 ∨ (5/2 : ℚ) < (4 : ℚ) / 1 then true else false)
  ∧ max_speed_ratio_default = 5/2 :=
  modeB_speed_ratio_clamped 4 1 (5/2) (by norm_num) (by norm_num) (by norm_num)

/-! ### Claim C8 -/

/-- C8: the Pause-Script Composer is deterministic — it is a pure function of
its transcript, so identical `TranscriptData` inputs produce byte-identical
annotated scripts. -/
theorem create_natural_text_deterministic (t1 t2 : TranscriptData) (h : t1 = t2) :
    create_natural_text t1 = create_natural_text t2 :=
  congrArg create_natural_text h

/-- Witness for C8 at a concrete transcript. -/
theorem create_natural_text_deterministic_witness :
    create_natural_text gapTranscript = create_natural_text gapTranscript :=
  create_natural_text_deterministic gapTranscript gapTranscript rfl

/-! ### Claim C9 -/

/-- C9: `replace_audio_in_video` is independent of its `original_duration`
parameter — for fixed probed durations, any two values of the parameter yield
the same mux command (the source accepts the parameter but never reads it). -/
theorem replace_audio_ignores_original_duration (vd ad od1 od2 : Option ℚ) :
    replace_audio_in_video vd ad od1 = replace_audio_in_video vd ad od2 := rfl

/-! ### Claim C10 -/

theorem takeWhile_append_all (q : Char → Bool) (a b : List Char)
    (h : ∀ x ∈ a, q x = true) : (a ++ b).takeWhile q = a ++ b.takeWhile q := by
  induction a with
  | nil => rfl
  | cons c cs ih =>
    have hc : q c = true := h c (List.mem_cons_self c cs)
    rw [List.cons_append, List.takeWhile_cons, if_pos hc,
      ih (fun x hx => h x (List.mem_cons_of_mem c hx))]
    rfl

theorem dropWhile_append_all (q : Char → Bool) (a b : List Char)
    (h : ∀ x ∈ a, q x = true) : (a ++ b).dropWhile q = b.dropWhile q := by
  induction a with
  | nil => rfl
  | cons c cs ih =>
    have hc : q c = true := h c (List.mem_cons_self c cs)
    rw [List.cons_append, List.dropWhile_cons, if_pos hc,
      ih (fun x hx => h x (List.mem_cons_of_mem c hx))]

theorem basename_no_slash (p : List Char) : ∀ c ∈ basenameChars p, notSlash c = true := by
  intro c hc
  unfold basenameChars at hc
  rw [List.mem_reverse] at hc
  exact List.mem_takeWhile_imp hc

theorem stem_mem_subset (n : List Char) : ∀ c ∈ stemChars n, c ∈ n := by
  intro c hc
  unfold stemChars at hc
  split at hc
  · exact hc
  · rw [List.mem_reverse] at hc
    have h1 : c ∈ n.reverse.dropWhile notDot := List.drop_subset 1 _ hc
    have h2 : c ∈ n.reverse := (List.dropWhile_sublist notDot).subset h1
    exact List.mem_reverse.mp h2

theorem basename_join (d n : List Char) (h : ∀ c ∈ n, notSlash c = true) :
    basenameChars (joinChars d n) = n := by
  unfold joinChars
  split
  · unfold basenameChars
    rw [List.takeWhile_eq_self_iff.mpr (fun c hc => h c (List.mem_reverse.mp hc)),
      List.reverse_reverse]
  · unfold basenameChars
    have e1 : (d ++ '/' :: n).reverse = n.reverse ++ '/' :: d.reverse := by simp
    rw [e1, takeWhile_append_all notSlash n.reverse _
        (fun c hc => h c (List.mem_reverse.mp hc)),
      List.takeWhile_cons, if_neg (by decide)]
    simp

theorem dirname_join (d n : List Char) (h : ∀ c ∈ n, notSlash c = true) :
    dirnameChars (joinChars d n) = d := by
  unfold joinChars
  split
  next hd =>
    unfold dirnameChars
    rw [List.dropWhile_eq_nil_iff.mpr (fun c hc => h c (List.mem_reverse.mp hc)), hd]
    rfl
  next =>
    unfold dirnameChars
    have e1 : (d ++ '/' :: n).reverse = n.reverse ++ '/' :: d.reverse := by simp
    rw [e1, dropWhile_append_all notSlash n.reverse _
        (fun c hc => h c (List.mem_reverse.mp hc)),
      List.dropWhile_cons, if_neg (by decide)]
    simp

theorem suffix_no_slash : ∀ c ∈ voiceChangedSuffix, notSlash c = true := by decide

/-- C10: when `process_video` is called with `output_path` absent, the chosen
output path lies in the same directory as the input video and its file name
is the input's stem followed by `_voice_changed.mp4`. -/
theorem process_video_default_output (p : List Char) :
    dirnameChars (default_output_path p) = dirnameChars p
  ∧ basenameChars (default_output_path p) = path_stem p ++ voiceChangedSuffix := by
  have hs : ∀ c ∈ path_stem p ++ voiceChangedSuffix, notSlash c = true := by
    intro c hc
    rcases List.mem_append.mp hc with h1 | h1
    · exact basename_no_slash p c (stem_mem_subset (basenameChars p) c h1)
    · exact suffix_no_slash c h1
  unfold default_output_path
  exact ⟨dirname_join _ _ hs, basename_join _ _ hs⟩
